import Mathlib

/-!
Shallow embedding of the HydroCredToken Solidity contract
(src/blockchain/contracts/HydroCredToken.sol), together with the parts of the
OpenZeppelin v5 base contracts (ERC721, AccessControl, Pausable) whose
behaviour the contract inherits and that the verified properties depend on.

Modelling choices:
* Addresses and uint256 values are `Nat`; `bytes32` request hashes are `Nat`
  with `0` playing the role of `bytes32(0)`.  None of the verified operations
  performs arithmetic that can reach 2^256 on any trace of realistic length
  (counters grow by at most 1000 per call), so no modular reduction is needed.
* Every external function is a total Lean function from the pre-state and the
  call arguments into `Except Err ContractState`.  A `.error` result models an
  EVM revert; the transaction interpreter `exec` keeps the old state in that
  case, which is exactly the EVM's roll-back-on-revert semantics.
* `msg.sender` is passed explicitly as the argument `sender`.  Traces range
  over calls with nonzero senders, matching the EVM guarantee that
  `msg.sender` is never the zero address.
* `block.timestamp` is passed explicitly as `ts` where the source reads it.
* ERC721Enumerable only adds enumeration bookkeeping (arrays not read by any
  verified operation) and introduces no extra revert on the paths modelled
  here, so its private storage is not carried.
* `_safeMint` / `safeTransferFrom` end with the `onERC721Received` hook, which
  is a no-op for externally-owned-account recipients; recipients in this model
  are plain account identifiers, so the hook is the identity.
-/

namespace HydroCred

abbrev Address : Type := Nat

abbrev Hash : Type := Nat

/-- Pointwise update of a mapping modelled as a function: Solidity `m[k] = v`. -/
def upd {α : Type} (f : Nat → α) (k : Nat) (v : α) : Nat → α :=
  fun x => if x = k then v else f x

/-- Update of a two-key mapping: Solidity `m[a][b] = v`. -/
def upd2 (f : Nat → Nat → Bool) (a b : Nat) (v : Bool) : Nat → Nat → Bool :=
  fun x y => if x = a ∧ y = b then v else f x y

/-- Revert reasons of HydroCredToken and of its OpenZeppelin base contracts,
one constructor per distinct require/custom error actually reachable from the
modelled entry points. -/
inductive Err : Type
  /-- AccessControl: an onlyRole modifier failed (AccessControlUnauthorizedAccount). -/
  | missingRole
  /-- Pausable: whenNotPaused hit while the contract is paused (EnforcedPause). -/
  | enforcedPause
  /-- Pausable: whenPaused hit while the contract is not paused (ExpectedPause). -/
  | expectedPause
  /-- Appointing, registering or issuing to the zero address. -/
  | zeroAddress
  /-- appointCountryAdmin: "Already a Country Admin". -/
  | alreadyCountryAdmin
  /-- appointStateAdmin: "Already a State Admin". -/
  | alreadyStateAdmin
  /-- appointCityAdmin: "Already a City Admin". -/
  | alreadyCityAdmin
  /-- registerProducer: "Already a Producer". -/
  | alreadyProducer
  /-- registerProducer: "Admins cannot be producers". -/
  | adminCannotBeProducer
  /-- registerBuyer: "Already a Buyer". -/
  | alreadyBuyer
  /-- registerBuyer: "Producers cannot be buyers". -/
  | producerCannotBeBuyer
  /-- certifyRequest: "Invalid request hash". -/
  | invalidRequestHash
  /-- certifyRequest: "Request already certified". -/
  | alreadyCertified
  /-- The caller's stored jurisdiction differs from the one in the call
  ("Can only appoint/register/certify within your country/state/city"). -/
  | jurisdictionMismatch
  /-- batchIssue: "Amount must be greater than 0". -/
  | amountZero
  /-- batchIssue: "Cannot issue more than 1000 credits at once". -/
  | amountTooLarge
  /-- batchIssue: "Can only issue to registered producers". -/
  | recipientNotProducer
  /-- batchIssue: "Request not certified". -/
  | requestNotCertified
  /-- batchIssue: "Only certifier can issue credits". -/
  | unauthorizedIssuer
  /-- batchIssue: "Cannot issue credits to self". -/
  | selfIssuance
  /-- batchIssue: "Producer not in same city as request". -/
  | producerCityMismatch
  /-- retire: "Only owner can retire credit". -/
  | notOwner
  /-- retire: "Only buyers can retire credits". -/
  | retirerNotBuyer
  /-- retire: "Credit already retired". -/
  | alreadyRetired
  /-- transferFrom / safeTransferFrom / _update: "Cannot transfer retired credit". -/
  | unitRetired
  /-- transferFrom / safeTransferFrom: "Buyers can only purchase from certified producers". -/
  | sellerNotProducer
  /-- ERC721: transfer or mint to the zero address (ERC721InvalidReceiver). -/
  | invalidReceiver
  /-- ERC721: minting an already-minted token id (ERC721InvalidSender). -/
  | invalidSender
  /-- ERC721: the `from` argument is not the current owner (ERC721IncorrectOwner). -/
  | incorrectOwner
  /-- ERC721: operating on a token without an owner (ERC721NonexistentToken). -/
  | nonexistentToken
  /-- ERC721: caller neither owner nor approved (ERC721InsufficientApproval). -/
  | insufficientApproval
  /-- ERC721: approve by a caller who is neither owner nor operator (ERC721InvalidApprover). -/
  | invalidApprover
  /-- ERC721: setApprovalForAll with the zero address as operator (ERC721InvalidOperator). -/
  | invalidOperator
  deriving DecidableEq, Repr

/-- Full storage of HydroCredToken: its own declared mappings and counters, the
AccessControl role tables (one Bool table per role the contract uses), the
ERC721 core storage (owners, balances, approvals) and the Pausable flag. -/
structure ContractState : Type where
  hasDefaultAdmin : Address → Bool
  hasCountryAdmin : Address → Bool
  hasStateAdmin : Address → Bool
  hasCityAdmin : Address → Bool
  hasProducer : Address → Bool
  hasBuyer : Address → Bool
  adminCountries : Address → Nat
  adminStates : Address → Nat
  adminCities : Address → Nat
  producerCities : Address → Nat
  nextTokenId : Nat
  nextCountryId : Nat
  nextStateId : Nat
  nextCityId : Nat
  isRetired : Nat → Bool
  retiredBy : Nat → Address
  retiredAt : Nat → Nat
  tokenCountry : Nat → Nat
  tokenState : Nat → Nat
  tokenCity : Nat → Nat
  tokenProducer : Nat → Address
  tokenIssuedAt : Nat → Nat
  certifiedRequests : Hash → Bool
  requestCertifiers : Hash → Address
  requestCities : Hash → Nat
  stateToCountry : Nat → Nat
  cityToState : Nat → Nat
  owners : Nat → Address
  balances : Address → Nat
  tokenApprovals : Nat → Address
  operatorApprovals : Address → Address → Bool
  paused : Bool

/-- Constructor: grants DEFAULT_ADMIN_ROLE to mainAdmin (required nonzero by
the constructor); the id counters start at 1 and every mapping is empty. -/
def init (mainAdmin : Address) : ContractState where
  hasDefaultAdmin := upd (fun _ => false) mainAdmin true
  hasCountryAdmin := fun _ => false
  hasStateAdmin := fun _ => false
  hasCityAdmin := fun _ => false
  hasProducer := fun _ => false
  hasBuyer := fun _ => false
  adminCountries := fun _ => 0
  adminStates := fun _ => 0
  adminCities := fun _ => 0
  producerCities := fun _ => 0
  nextTokenId := 1
  nextCountryId := 1
  nextStateId := 1
  nextCityId := 1
  isRetired := fun _ => false
  retiredBy := fun _ => 0
  retiredAt := fun _ => 0
  tokenCountry := fun _ => 0
  tokenState := fun _ => 0
  tokenCity := fun _ => 0
  tokenProducer := fun _ => 0
  tokenIssuedAt := fun _ => 0
  certifiedRequests := fun _ => false
  requestCertifiers := fun _ => 0
  requestCities := fun _ => 0
  stateToCountry := fun _ => 0
  cityToState := fun _ => 0
  owners := fun _ => 0
  balances := fun _ => 0
  tokenApprovals := fun _ => 0
  operatorApprovals := fun _ _ => false
  paused := false

/-- getStateForCity. -/
def getStateForCity (s : ContractState) (cityId : Nat) : Nat :=
  s.cityToState cityId

/-- getCountryForCity. -/
def getCountryForCity (s : ContractState) (cityId : Nat) : Nat :=
  s.stateToCountry (s.cityToState cityId)

/-- appointCountryAdmin (Main Admin only): allocates the next country id. -/
def appointCountryAdmin (s : ContractState) (sender admin : Address) :
    Except Err ContractState :=
  if s.hasDefaultAdmin sender = false then .error .missingRole
  else if admin = 0 then .error .zeroAddress
  else if s.hasCountryAdmin admin = true then .error .alreadyCountryAdmin
  else .ok { s with
    nextCountryId := s.nextCountryId + 1,
    hasCountryAdmin := upd s.hasCountryAdmin admin true,
    adminCountries := upd s.adminCountries admin s.nextCountryId }

/-- appointStateAdmin (Country Admin only, within the caller's country). -/
def appointStateAdmin (s : ContractState) (sender admin : Address) (countryId : Nat) :
    Except Err ContractState :=
  if s.hasCountryAdmin sender = false then .error .missingRole
  else if admin = 0 then .error .zeroAddress
  else if s.adminCountries sender ≠ countryId then .error .jurisdictionMismatch
  else if s.hasStateAdmin admin = true then .error .alreadyStateAdmin
  else .ok { s with
    nextStateId := s.nextStateId + 1,
    hasStateAdmin := upd s.hasStateAdmin admin true,
    adminStates := upd s.adminStates admin s.nextStateId,
    stateToCountry := upd s.stateToCountry s.nextStateId countryId }

/-- appointCityAdmin (State Admin only, within the caller's state). -/
def appointCityAdmin (s : ContractState) (sender admin : Address) (stateId : Nat) :
    Except Err ContractState :=
  if s.hasStateAdmin sender = false then .error .missingRole
  else if admin = 0 then .error .zeroAddress
  else if s.adminStates sender ≠ stateId then .error .jurisdictionMismatch
  else if s.hasCityAdmin admin = true then .error .alreadyCityAdmin
  else .ok { s with
    nextCityId := s.nextCityId + 1,
    hasCityAdmin := upd s.hasCityAdmin admin true,
    adminCities := upd s.adminCities admin s.nextCityId,
    cityToState := upd s.cityToState s.nextCityId stateId }

/-- registerProducer (City Admin only, within the caller's city). -/
def registerProducer (s : ContractState) (sender producer : Address) (cityId : Nat) :
    Except Err ContractState :=
  if s.hasCityAdmin sender = false then .error .missingRole
  else if producer = 0 then .error .zeroAddress
  else if s.adminCities sender ≠ cityId then .error .jurisdictionMismatch
  else if s.hasProducer producer = true then .error .alreadyProducer
  else if s.hasCityAdmin producer = true then .error .adminCannotBeProducer
  else if s.hasStateAdmin producer = true then .error .adminCannotBeProducer
  else if s.hasCountryAdmin producer = true then .error .adminCannotBeProducer
  else if s.hasDefaultAdmin producer = true then .error .adminCannotBeProducer
  else .ok { s with
    hasProducer := upd s.hasProducer producer true,
    producerCities := upd s.producerCities producer cityId }

/-- registerBuyer (self-registration). -/
def registerBuyer (s : ContractState) (sender : Address) :
    Except Err ContractState :=
  if s.hasBuyer sender = true then .error .alreadyBuyer
  else if s.hasProducer sender = true then .error .producerCannotBeBuyer
  else .ok { s with hasBuyer := upd s.hasBuyer sender true }

/-- certifyRequest (City Admin only, unpaused, within the caller's city). -/
def certifyRequest (s : ContractState) (sender : Address) (requestHash : Hash) (cityId : Nat) :
    Except Err ContractState :=
  if s.hasCityAdmin sender = false then .error .missingRole
  else if s.paused = true then .error .enforcedPause
  else if requestHash = 0 then .error .invalidRequestHash
  else if s.certifiedRequests requestHash = true then .error .alreadyCertified
  else if s.adminCities sender ≠ cityId then .error .jurisdictionMismatch
  else .ok { s with
    certifiedRequests := upd s.certifiedRequests requestHash true,
    requestCertifiers := upd s.requestCertifiers requestHash sender,
    requestCities := upd s.requestCities requestHash cityId }

/-- ERC721._isAuthorized: owner, per-token approved address, or operator. -/
def isAuthorized (s : ContractState) (owner spender : Address) (tokenId : Nat) : Bool :=
  spender != 0 &&
    (owner == spender || s.operatorApprovals owner spender || s.tokenApprovals tokenId == spender)

/-- ERC721._update (base): when auth is nonzero it must be authorized for the
current owner, then the approval is cleared and balances and ownership are
updated.  Balance arithmetic is `unchecked` in the source; underflow is
unreachable because the decrement only runs for the current owner. -/
def erc721Update (s : ContractState) (toA : Address) (tokenId : Nat) (auth : Address) :
    Except Err (Address × ContractState) :=
  let frm := s.owners tokenId
  if auth ≠ 0 ∧ isAuthorized s frm auth tokenId = false then
    if frm = 0 then .error .nonexistentToken else .error .insufficientApproval
  else
    .ok (frm, { s with
      tokenApprovals := if frm ≠ 0 then upd s.tokenApprovals tokenId 0 else s.tokenApprovals,
      balances :=
        (fun b => if toA ≠ 0 then upd b toA (b toA + 1) else b)
          (if frm ≠ 0 then upd s.balances frm (s.balances frm - 1) else s.balances),
      owners := upd s.owners tokenId toA })

/-- HydroCredToken._update override: whenNotPaused, then the retired-credit
guard (skipped when minting, i.e. when the token has no owner yet), then the
base update. -/
def hydroUpdate (s : ContractState) (toA : Address) (tokenId : Nat) (auth : Address) :
    Except Err (Address × ContractState) :=
  if s.paused = true then .error .enforcedPause
  else if s.owners tokenId ≠ 0 ∧ s.isRetired tokenId = true then .error .unitRetired
  else erc721Update s toA tokenId auth

/-- ERC721._safeMint: _mint (zero-receiver check, _update with auth = 0,
previous-owner-must-be-zero check) followed by the receiver hook, a no-op for
externally owned accounts. -/
def safeMint (s : ContractState) (toA : Address) (tokenId : Nat) :
    Except Err ContractState :=
  if toA = 0 then .error .invalidReceiver
  else match hydroUpdate s toA tokenId 0 with
    | .error e => .error e
    | .ok (prev, s1) => if prev ≠ 0 then .error .invalidSender else .ok s1

/-- The for-loop body of batchIssue: mints `amount` tokens one after another,
stamping each with the geographic metadata and bumping _nextTokenId. -/
def mintBatch (s : ContractState) (toA : Address) (amount : Nat) (cityId ts : Nat) :
    Except Err ContractState :=
  match amount with
  | 0 => .ok s
  | n + 1 =>
    match safeMint s toA s.nextTokenId with
    | .error e => .error e
    | .ok s1 =>
      mintBatch { s1 with
        tokenCountry := upd s1.tokenCountry s.nextTokenId (getCountryForCity s1 cityId),
        tokenState := upd s1.tokenState s.nextTokenId (getStateForCity s1 cityId),
        tokenCity := upd s1.tokenCity s.nextTokenId cityId,
        tokenProducer := upd s1.tokenProducer s.nextTokenId toA,
        tokenIssuedAt := upd s1.tokenIssuedAt s.nextTokenId ts,
        nextTokenId := s1.nextTokenId + 1 } toA n cityId ts

/-- batchIssue (City Admin only, unpaused): all requires in source order, then
the mint loop, then deletion of the consumed certification record. -/
def batchIssue (s : ContractState) (sender toA : Address) (amount : Nat)
    (requestHash : Hash) (ts : Nat) : Except Err ContractState :=
  if s.hasCityAdmin sender = false then .error .missingRole
  else if s.paused = true then .error .enforcedPause
  else if toA = 0 then .error .zeroAddress
  else if amount = 0 then .error .amountZero
  else if 1000 < amount then .error .amountTooLarge
  else if s.hasProducer toA = false then .error .recipientNotProducer
  else if s.certifiedRequests requestHash = false then .error .requestNotCertified
  else if s.requestCertifiers requestHash ≠ sender then .error .unauthorizedIssuer
  else if toA = sender then .error .selfIssuance
  else if s.producerCities toA ≠ s.requestCities requestHash then .error .producerCityMismatch
  else
    match mintBatch s toA amount (s.requestCities requestHash) ts with
    | .error e => .error e
    | .ok s1 => .ok { s1 with
        certifiedRequests := upd s1.certifiedRequests requestHash false,
        requestCertifiers := upd s1.requestCertifiers requestHash 0,
        requestCities := upd s1.requestCities requestHash 0 }

/-- retire: owner-only, buyer-only, once. -/
def retire (s : ContractState) (sender : Address) (tokenId : Nat) (ts : Nat) :
    Except Err ContractState :=
  if s.owners tokenId ≠ sender then .error .notOwner
  else if s.hasBuyer sender = false then .error .retirerNotBuyer
  else if s.isRetired tokenId = true then .error .alreadyRetired
  else .ok { s with
    isRetired := upd s.isRetired tokenId true,
    retiredBy := upd s.retiredBy tokenId sender,
    retiredAt := upd s.retiredAt tokenId ts }

/-- ERC721.transferFrom, the target of super.transferFrom: zero-receiver
check, overridden _update with auth = msg.sender, previous-owner check. -/
def ozTransferFrom (s : ContractState) (sender frm toA : Address) (tokenId : Nat) :
    Except Err ContractState :=
  if toA = 0 then .error .invalidReceiver
  else match hydroUpdate s toA tokenId sender with
    | .error e => .error e
    | .ok (prev, s1) => if prev ≠ frm then .error .incorrectOwner else .ok s1

/-- HydroCredToken.transferFrom override: retired-credit guard, then the
buyers-only-buy-from-producers guard, then super.transferFrom. -/
def transferFrom (s : ContractState) (sender frm toA : Address) (tokenId : Nat) :
    Except Err ContractState :=
  if s.isRetired tokenId = true then .error .unitRetired
  else if s.hasBuyer toA = true ∧ s.hasProducer frm = false then .error .sellerNotProducer
  else ozTransferFrom s sender frm toA tokenId

/-- HydroCredToken.safeTransferFrom override: identical guards, then
super.safeTransferFrom, i.e. transferFrom followed by the receiver hook,
a no-op for externally owned accounts. -/
def safeTransferFrom (s : ContractState) (sender frm toA : Address) (tokenId : Nat) :
    Except Err ContractState :=
  if s.isRetired tokenId = true then .error .unitRetired
  else if s.hasBuyer toA = true ∧ s.hasProducer frm = false then .error .sellerNotProducer
  else ozTransferFrom s sender frm toA tokenId

/-- ERC721.approve, inherited unchanged: the token must be owned and the caller
must be the owner or one of the owner's operators. -/
def approve (s : ContractState) (sender toA : Address) (tokenId : Nat) :
    Except Err ContractState :=
  if s.owners tokenId = 0 then .error .nonexistentToken
  else if sender ≠ 0 ∧ s.owners tokenId ≠ sender ∧
      s.operatorApprovals (s.owners tokenId) sender = false then
    .error .invalidApprover
  else .ok { s with tokenApprovals := upd s.tokenApprovals tokenId toA }

/-- ERC721.setApprovalForAll, inherited unchanged. -/
def setApprovalForAll (s : ContractState) (sender opr : Address) (approved : Bool) :
    Except Err ContractState :=
  if opr = 0 then .error .invalidOperator
  else .ok { s with operatorApprovals := upd2 s.operatorApprovals sender opr approved }

/-- pause (Main Admin only); Pausable._pause itself carries whenNotPaused. -/
def pause (s : ContractState) (sender : Address) : Except Err ContractState :=
  if s.hasDefaultAdmin sender = false then .error .missingRole
  else if s.paused = true then .error .enforcedPause
  else .ok { s with paused := true }

/-- unpause (Main Admin only); Pausable._unpause itself carries whenPaused. -/
def unpause (s : ContractState) (sender : Address) : Except Err ContractState :=
  if s.hasDefaultAdmin sender = false then .error .missingRole
  else if s.paused = false then .error .expectedPause
  else .ok { s with paused := false }

/-- One external call to the contract; the first field is msg.sender. -/
inductive Op : Type
  | appointCountryAdmin (sender admin : Address)
  | appointStateAdmin (sender admin : Address) (countryId : Nat)
  | appointCityAdmin (sender admin : Address) (stateId : Nat)
  | registerProducer (sender producer : Address) (cityId : Nat)
  | registerBuyer (sender : Address)
  | certifyRequest (sender : Address) (requestHash : Hash) (cityId : Nat)
  | batchIssue (sender toA : Address) (amount : Nat) (requestHash : Hash) (ts : Nat)
  | transferFrom (sender frm toA : Address) (tokenId : Nat)
  | safeTransferFrom (sender frm toA : Address) (tokenId : Nat)
  | retire (sender : Address) (tokenId : Nat) (ts : Nat)
  | approve (sender toA : Address) (tokenId : Nat)
  | setApprovalForAll (sender opr : Address) (approved : Bool)
  | pause (sender : Address)
  | unpause (sender : Address)
  deriving DecidableEq, Repr

/-- The msg.sender of a call. -/
def Op.sender : Op → Address
  | .appointCountryAdmin sender _ => sender
  | .appointStateAdmin sender _ _ => sender
  | .appointCityAdmin sender _ _ => sender
  | .registerProducer sender _ _ => sender
  | .registerBuyer sender => sender
  | .certifyRequest sender _ _ => sender
  | .batchIssue sender _ _ _ _ => sender
  | .transferFrom sender _ _ _ => sender
  | .safeTransferFrom sender _ _ _ => sender
  | .retire sender _ _ => sender
  | .approve sender _ _ => sender
  | .setApprovalForAll sender _ _ => sender
  | .pause sender => sender
  | .unpause sender => sender

/-- Dispatch one call to the corresponding contract function. -/
def step (s : ContractState) : Op → Except Err ContractState
  | .appointCountryAdmin sender admin => appointCountryAdmin s sender admin
  | .appointStateAdmin sender admin countryId => appointStateAdmin s sender admin countryId
  | .appointCityAdmin sender admin stateId => appointCityAdmin s sender admin stateId
  | .registerProducer sender producer cityId => registerProducer s sender producer cityId
  | .registerBuyer sender => registerBuyer s sender
  | .certifyRequest sender requestHash cityId => certifyRequest s sender requestHash cityId
  | .batchIssue sender toA amount requestHash ts => batchIssue s sender toA amount requestHash ts
  | .transferFrom sender frm toA tokenId => transferFrom s sender frm toA tokenId
  | .safeTransferFrom sender frm toA tokenId => safeTransferFrom s sender frm toA tokenId
  | .retire sender tokenId ts => retire s sender tokenId ts
  | .approve sender toA tokenId => approve s sender toA tokenId
  | .setApprovalForAll sender opr approved => setApprovalForAll s sender opr approved
  | .pause sender => pause s sender
  | .unpause sender => unpause s sender

/-- EVM transaction semantics: a reverted call leaves the state unchanged. -/
def exec (s : ContractState) (op : Op) : ContractState :=
  match step s op with
  | .ok s1 => s1
  | .error _ => s

/-- Run a sequence of transactions. -/
def execs (s : ContractState) (ops : List Op) : ContractState :=
  ops.foldl exec s

/-- Whether a call succeeded. -/
def isOk {α : Type} : Except Err α → Bool
  | .ok _ => true
  | .error _ => false

/-- Every call in the trace comes from a real (nonzero) account, the EVM
guarantee for msg.sender. -/
def GoodOps (ops : List Op) : Prop := ∀ op ∈ ops, op.sender ≠ 0

instance : DecidablePred GoodOps := fun ops => List.decidableBAll _ ops

/-- States reachable from deployment (mainAdmin nonzero, as required by the
constructor) through calls from nonzero senders. -/
def Reachable (mainAdmin : Address) (s : ContractState) : Prop :=
  mainAdmin ≠ 0 ∧ ∃ ops : List Op, GoodOps ops ∧ execs (init mainAdmin) ops = s

/-- Reachability invariant tying the token tables to the id counter: the
counter is at least 1, ids at or above the counter are unowned, retired ids
are owned, unowned ids carry no approval, and the zero address has no
operators. -/
def Inv (s : ContractState) : Prop :=
  1 ≤ s.nextTokenId ∧
  (∀ id, s.nextTokenId ≤ id → s.owners id = 0) ∧
  (∀ id, s.isRetired id = true → s.owners id ≠ 0) ∧
  (∀ id, s.owners id = 0 → s.tokenApprovals id = 0) ∧
  (∀ x, s.operatorApprovals 0 x = false)

/-- Fields relevant to the token-table invariant are unchanged. -/
def CoreEq (s s1 : ContractState) : Prop :=
  s1.owners = s.owners ∧ s1.isRetired = s.isRetired ∧ s1.nextTokenId = s.nextTokenId ∧
  s1.tokenApprovals = s.tokenApprovals ∧ s1.operatorApprovals = s.operatorApprovals

/-- Demo trace: main admin 1 appoints country admin 2, who appoints state
admin 3, who appoints city admin 4 (city 1); 4 registers producer 5 in
city 1; 6 self-registers as buyer. -/
def setupOps : List Op :=
  [.appointCountryAdmin 1 2, .appointStateAdmin 2 3 1, .appointCityAdmin 3 4 1,
   .registerProducer 4 5 1, .registerBuyer 6]

def sSetup : ContractState := execs (init 1) setupOps

/-- City admin 4 certifies request hash 7 for city 1. -/
def certOps : List Op := setupOps ++ [.certifyRequest 4 7 1]

def sCert : ContractState := execs (init 1) certOps

/-- Certifier 4 issues 2 credits (token ids 1 and 2) to producer 5. -/
def issueOps : List Op := certOps ++ [.batchIssue 4 5 2 7 0]

def sIssued : ContractState := execs (init 1) issueOps

/-- Producer 5 sells token 1 to buyer 6. -/
def transOps : List Op := issueOps ++ [.transferFrom 5 5 6 1]

def sTrans : ContractState := execs (init 1) transOps

/-- Buyer 6 retires token 1. -/
def retireOps : List Op := transOps ++ [.retire 6 1 99]

def sRetired : ContractState := execs (init 1) retireOps

/-- Producer 5 approves account 6 on token 2. -/
def approveOps : List Op := issueOps ++ [.approve 5 6 2]

def sApproved : ContractState := execs (init 1) approveOps

/-- Main admin pauses the contract after the sale of token 1. -/
def pausedOps : List Op := transOps ++ [.pause 1]

def sPausedDemo : ContractState := execs (init 1) pausedOps

/-- A second city admin 8 (city 2) appointed next to certifier 4. -/
def twoAdminOps : List Op := certOps ++ [.appointCityAdmin 3 8 1]

def sTwoAdmins : ContractState := execs (init 1) twoAdminOps

/-- Producer 5 is additionally appointed city admin (city 2) and certifies
hash 11 for its own city. -/
def selfOps : List Op := setupOps ++ [.appointCityAdmin 3 5 1, .certifyRequest 5 11 2]

def sSelf : ContractState := execs (init 1) selfOps

/-- State right after city admin 4 is appointed. -/
def sCity : ContractState :=
  execs (init 1) [.appointCountryAdmin 1 2, .appointStateAdmin 2 3 1, .appointCityAdmin 3 4 1]

/-- Country admin 2 self-registers as buyer. -/
def twoRoleOps : List Op := [.appointCountryAdmin 1 2, .registerBuyer 2]

def sTwoRoles : ContractState := execs (init 1) twoRoleOps

end HydroCred

namespace HydroCred

theorem certifyRequest_ok {s : ContractState} {sender : Address} {h : Hash} {city : Nat}
    {s1 : ContractState} (hok : certifyRequest s sender h city = .ok s1) :
    s.hasCityAdmin sender = true ∧ s.paused = false ∧ h ≠ 0 ∧
    s.certifiedRequests h = false ∧ s.adminCities sender = city ∧
    s1 = { s with certifiedRequests := upd s.certifiedRequests h true,
                  requestCertifiers := upd s.requestCertifiers h sender,
                  requestCities := upd s.requestCities h city } := by
  unfold certifyRequest at hok
  repeat' split at hok
  all_goals simp_all

theorem appointCountryAdmin_core {s : ContractState} {sender admin : Address}
    {s1 : ContractState} (hok : appointCountryAdmin s sender admin = .ok s1) :
    CoreEq s s1 := by
  unfold appointCountryAdmin at hok
  repeat' split at hok
  all_goals simp_all [CoreEq]
  all_goals (subst hok; exact ⟨rfl, rfl, rfl, rfl, rfl⟩)

theorem appointStateAdmin_core {s : ContractState} {sender admin : Address} {countryId : Nat}
    {s1 : ContractState} (hok : appointStateAdmin s sender admin countryId = .ok s1) :
    CoreEq s s1 := by
  unfold appointStateAdmin at hok
  repeat' split at hok
  all_goals simp_all [CoreEq]
  all_goals (subst hok; exact ⟨rfl, rfl, rfl, rfl, rfl⟩)

theorem appointCityAdmin_core {s : ContractState} {sender admin : Address} {stateId : Nat}
    {s1 : ContractState} (hok : appointCityAdmin s sender admin stateId = .ok s1) :
    CoreEq s s1 := by
  unfold appointCityAdmin at hok
  repeat' split at hok
  all_goals simp_all [CoreEq]
  all_goals (subst hok; exact ⟨rfl, rfl, rfl, rfl, rfl⟩)

theorem registerProducer_core {s : ContractState} {sender producer : Address} {cityId : Nat}
    {s1 : ContractState} (hok : registerProducer s sender producer cityId = .ok s1) :
    CoreEq s s1 := by
  unfold registerProducer at hok
  repeat' split at hok
  all_goals simp_all [CoreEq]
  all_goals (subst hok; exact ⟨rfl, rfl, rfl, rfl, rfl⟩)

theorem registerBuyer_core {s : ContractState} {sender : Address}
    {s1 : ContractState} (hok : registerBuyer s sender = .ok s1) :
    CoreEq s s1 := by
  unfold registerBuyer at hok
  repeat' split at hok
  all_goals simp_all [CoreEq]
  all_goals (subst hok; exact ⟨rfl, rfl, rfl, rfl, rfl⟩)

theorem certifyRequest_core {s : ContractState} {sender : Address} {h : Hash} {city : Nat}
    {s1 : ContractState} (hok : certifyRequest s sender h city = .ok s1) :
    CoreEq s s1 := by
  obtain ⟨-, -, -, -, -, rfl⟩ := certifyRequest_ok hok
  simp [CoreEq]

theorem pause_core {s : ContractState} {sender : Address}
    {s1 : ContractState} (hok : pause s sender = .ok s1) :
    CoreEq s s1 := by
  unfold pause at hok
  repeat' split at hok
  all_goals simp_all [CoreEq]
  all_goals (subst hok; exact ⟨rfl, rfl, rfl, rfl, rfl⟩)

theorem unpause_core {s : ContractState} {sender : Address}
    {s1 : ContractState} (hok : unpause s sender = .ok s1) :
    CoreEq s s1 := by
  unfold unpause at hok
  repeat' split at hok
  all_goals simp_all [CoreEq]
  all_goals (subst hok; exact ⟨rfl, rfl, rfl, rfl, rfl⟩)

theorem retire_ok {s : ContractState} {sender : Address} {tokenId ts : Nat}
    {s1 : ContractState} (hok : retire s sender tokenId ts = .ok s1) :
    s.owners tokenId = sender ∧ s.hasBuyer sender = true ∧ s.isRetired tokenId = false ∧
    s1 = { s with
      isRetired := upd s.isRetired tokenId true,
      retiredBy := upd s.retiredBy tokenId sender,
      retiredAt := upd s.retiredAt tokenId ts } := by
  unfold retire at hok
  repeat' split at hok
  all_goals simp_all

theorem approve_ok {s : ContractState} {sender toA : Address} {tokenId : Nat}
    {s1 : ContractState} (hok : approve s sender toA tokenId = .ok s1) :
    s.owners tokenId ≠ 0 ∧
    s1 = { s with tokenApprovals := upd s.tokenApprovals tokenId toA } := by
  unfold approve at hok
  repeat' split at hok
  all_goals simp_all

theorem setApprovalForAll_ok {s : ContractState} {sender opr : Address} {approved : Bool}
    {s1 : ContractState} (hok : setApprovalForAll s sender opr approved = .ok s1) :
    opr ≠ 0 ∧
    s1 = { s with operatorApprovals := upd2 s.operatorApprovals sender opr approved } := by
  unfold setApprovalForAll at hok
  repeat' split at hok
  all_goals simp_all

end HydroCred

namespace HydroCred

theorem erc721Update_ok {s : ContractState} {toA : Address} {tokenId : Nat} {auth : Address}
    {prev : Address} {s1 : ContractState}
    (hok : erc721Update s toA tokenId auth = .ok (prev, s1)) :
    prev = s.owners tokenId ∧
    (auth = 0 ∨ isAuthorized s (s.owners tokenId) auth tokenId = true) ∧
    s1.owners = upd s.owners tokenId toA ∧
    s1.isRetired = s.isRetired ∧
    s1.nextTokenId = s.nextTokenId ∧
    s1.operatorApprovals = s.operatorApprovals ∧
    (∀ j, j ≠ tokenId → s1.tokenApprovals j = s.tokenApprovals j) ∧
    (s1.tokenApprovals tokenId = s.tokenApprovals tokenId ∨ s1.tokenApprovals tokenId = 0) ∧
    (s.owners tokenId = 0 → s1.tokenApprovals = s.tokenApprovals) ∧
    s1.paused = s.paused := by
  simp only [erc721Update] at hok
  split at hok
  · split at hok <;> simp_all
  · rename_i hcond
    have hauth : auth = 0 ∨ isAuthorized s (s.owners tokenId) auth tokenId = true := by
      rcases not_and_or.mp hcond with h | h
      · exact Or.inl (not_not.mp h)
      · exact Or.inr (by simpa using h)
    simp only [Except.ok.injEq, Prod.mk.injEq] at hok
    obtain ⟨hprev, hs1⟩ := hok
    subst hs1
    refine ⟨hprev.symm, hauth, rfl, rfl, rfl, rfl, ?_, ?_, ?_, rfl⟩
    · intro j hj
      by_cases hf : s.owners tokenId = 0 <;> simp [hf, upd, hj]
    · by_cases hf : s.owners tokenId = 0 <;> simp [hf, upd]
    · intro h0
      simp [h0]
end HydroCred

namespace HydroCred

theorem hydroUpdate_ok {s : ContractState} {toA : Address} {tokenId : Nat} {auth : Address}
    {prev : Address} {s1 : ContractState}
    (hok : hydroUpdate s toA tokenId auth = .ok (prev, s1)) :
    s.paused = false ∧ (s.owners tokenId = 0 ∨ s.isRetired tokenId = false) ∧
    erc721Update s toA tokenId auth = .ok (prev, s1) := by
  unfold hydroUpdate at hok
  split at hok
  · exact Except.noConfusion hok
  · split at hok
    · exact Except.noConfusion hok
    · rename_i hp hr
      refine ⟨by simpa using hp, ?_, hok⟩
      rcases not_and_or.mp hr with h | h
      · exact Or.inl (not_not.mp h)
      · exact Or.inr (by simpa using h)

theorem safeMint_ok {s : ContractState} {toA : Address} {tokenId : Nat} {s1 : ContractState}
    (hok : safeMint s toA tokenId = .ok s1) :
    toA ≠ 0 ∧ s.paused = false ∧ s.owners tokenId = 0 ∧
    s1.owners = upd s.owners tokenId toA ∧ s1.isRetired = s.isRetired ∧
    s1.nextTokenId = s.nextTokenId ∧ s1.tokenApprovals = s.tokenApprovals ∧
    s1.operatorApprovals = s.operatorApprovals ∧ s1.paused = s.paused := by
  unfold safeMint at hok
  split at hok
  · exact Except.noConfusion hok
  · rename_i ht0
    cases hh : hydroUpdate s toA tokenId 0 with
    | error e => rw [hh] at hok; simp at hok
    | ok pr =>
      obtain ⟨prev, s2⟩ := pr
      rw [hh] at hok
      replace hok : (if prev ≠ 0 then (Except.error Err.invalidSender : Except Err ContractState)
          else Except.ok s2) = Except.ok s1 := hok
      split at hok
      · exact Except.noConfusion hok
      · rename_i hprev
        injection hok with hok
        subst hok
        obtain ⟨hp, hdis, he⟩ := hydroUpdate_ok hh
        obtain ⟨hpv, -, ho, hr, hn, hop, -, -, htap0, hpa⟩ := erc721Update_ok he
        have hown0 : s.owners tokenId = 0 := by
          rw [← hpv]
          exact not_not.mp hprev
        exact ⟨ht0, hp, hown0, ho, hr, hn, htap0 hown0, hop, hpa⟩

theorem ozTransferFrom_ok {s : ContractState} {sender frm toA : Address} {tokenId : Nat}
    {s1 : ContractState} (hok : ozTransferFrom s sender frm toA tokenId = .ok s1) :
    toA ≠ 0 ∧ s.paused = false ∧ s.owners tokenId = frm ∧
    (s.owners tokenId = 0 ∨ s.isRetired tokenId = false) ∧
    (sender = 0 ∨ isAuthorized s frm sender tokenId = true) ∧
    s1.owners = upd s.owners tokenId toA ∧ s1.isRetired = s.isRetired ∧
    s1.nextTokenId = s.nextTokenId ∧
    (∀ j, j ≠ tokenId → s1.tokenApprovals j = s.tokenApprovals j) ∧
    (s1.tokenApprovals tokenId = s.tokenApprovals tokenId ∨ s1.tokenApprovals tokenId = 0) ∧
    s1.operatorApprovals = s.operatorApprovals ∧ s1.paused = s.paused := by
  unfold ozTransferFrom at hok
  split at hok
  · exact Except.noConfusion hok
  · rename_i ht0
    cases hh : hydroUpdate s toA tokenId sender with
    | error e => rw [hh] at hok; simp at hok
    | ok pr =>
      obtain ⟨prev, s2⟩ := pr
      rw [hh] at hok
      replace hok : (if prev ≠ frm then (Except.error Err.incorrectOwner : Except Err ContractState)
          else Except.ok s2) = Except.ok s1 := hok
      split at hok
      · exact Except.noConfusion hok
      · rename_i hprev
        injection hok with hok
        subst hok
        obtain ⟨hp, hdis, he⟩ := hydroUpdate_ok hh
        obtain ⟨hpv, hauth, ho, hr, hn, hop, htapj, htapd, -, hpa⟩ := erc721Update_ok he
        have hfrm : s.owners tokenId = frm := by
          rw [← hpv]
          exact not_not.mp hprev
        rw [hfrm] at hauth
        exact ⟨ht0, hp, hfrm, hdis, hauth, ho, hr, hn, htapj, htapd, hop, hpa⟩

theorem transferFrom_ok {s : ContractState} {sender frm toA : Address} {tokenId : Nat}
    {s1 : ContractState} (hok : transferFrom s sender frm toA tokenId = .ok s1) :
    s.isRetired tokenId = false ∧
    (s.hasBuyer toA = true → s.hasProducer frm = true) ∧
    toA ≠ 0 ∧ s.paused = false ∧ s.owners tokenId = frm ∧
    (sender = 0 ∨ isAuthorized s frm sender tokenId = true) ∧
    s1.owners = upd s.owners tokenId toA ∧ s1.isRetired = s.isRetired ∧
    s1.nextTokenId = s.nextTokenId ∧
    (∀ j, j ≠ tokenId → s1.tokenApprovals j = s.tokenApprovals j) ∧
    (s1.tokenApprovals tokenId = s.tokenApprovals tokenId ∨ s1.tokenApprovals tokenId = 0) ∧
    s1.operatorApprovals = s.operatorApprovals ∧ s1.paused = s.paused := by
  unfold transferFrom at hok
  split at hok
  · exact Except.noConfusion hok
  · split at hok
    · exact Except.noConfusion hok
    · rename_i hret hby
      obtain ⟨ht0, hp, hfrm, -, hauth, ho, hr, hn, htapj, htapd, hop, hpa⟩ :=
        ozTransferFrom_ok hok
      have hbuyer : s.hasBuyer toA = true → s.hasProducer frm = true := by
        intro hb
        rcases not_and_or.mp hby with h | h
        · exact absurd hb h
        · simpa using h
      exact ⟨by simpa using hret, hbuyer, ht0, hp, hfrm, hauth, ho, hr, hn, htapj, htapd,
        hop, hpa⟩

theorem safeTransferFrom_eq (s : ContractState) (sender frm toA : Address) (tokenId : Nat) :
    safeTransferFrom s sender frm toA tokenId = transferFrom s sender frm toA tokenId := rfl

end HydroCred

namespace HydroCred

theorem mintBatch_ok : ∀ {amount : Nat} {s s1 : ContractState} {toA : Address} {cityId ts : Nat},
    mintBatch s toA amount cityId ts = .ok s1 →
    s1.nextTokenId = s.nextTokenId + amount ∧
    (∀ j, j < s.nextTokenId → s1.owners j = s.owners j) ∧
    (∀ j, s.nextTokenId ≤ j → j < s.nextTokenId + amount → s1.owners j = toA) ∧
    (∀ j, s.nextTokenId + amount ≤ j → s1.owners j = s.owners j) ∧
    s1.isRetired = s.isRetired ∧ s1.tokenApprovals = s.tokenApprovals ∧
    s1.operatorApprovals = s.operatorApprovals ∧ s1.paused = s.paused := by
  intro amount
  induction amount with
  | zero =>
    intro s s1 toA cityId ts hok
    simp only [mintBatch] at hok
    injection hok with hok
    subst hok
    refine ⟨rfl, fun j _ => rfl, fun j h1 h2 => absurd h2 (by omega), fun j _ => rfl,
      rfl, rfl, rfl, rfl⟩
  | succ n ih =>
    intro s s1 toA cityId ts hok
    simp only [mintBatch] at hok
    cases hsm : safeMint s toA s.nextTokenId with
    | error e => rw [hsm] at hok; exact Except.noConfusion hok
    | ok sA =>
      rw [hsm] at hok
      obtain ⟨hnext, hlow, hrange, hhigh, hret, htap, hop, hpa⟩ := ih hok
      obtain ⟨ht0, hp, hown0, hoA, hrA, hnA, htapA, hopA, hpaA⟩ := safeMint_ok hsm
      have hnext2 : s1.nextTokenId = s.nextTokenId + (n + 1) := by
        simp only [hnext, hnA]
        omega
      refine ⟨hnext2, ?_, ?_, ?_, ?_, ?_, ?_, ?_⟩
      · intro j hj
        have hj1 : j < sA.nextTokenId + 1 := by omega
        rw [hlow j (by simpa using hj1), hoA]
        simp [upd]
        intro hje
        omega
      · intro j h1 h2
        rcases Nat.eq_or_lt_of_le h1 with he | hlt
        · have hj1 : j < sA.nextTokenId + 1 := by omega
          rw [hlow j (by simpa using hj1), hoA, ← he]
          simp [upd]
        · have : sA.nextTokenId + 1 ≤ j := by omega
          exact hrange j (by simpa using this) (by omega)
      · intro j hj
        have : sA.nextTokenId + 1 + n ≤ j := by omega
        rw [hhigh j (by simpa using this), hoA]
        simp [upd]
        intro hje
        omega
      · rw [hret, hrA]
      · rw [htap, htapA]
      · rw [hop, hopA]
      · rw [hpa, hpaA]

end HydroCred

namespace HydroCred

theorem batchIssue_ok {s : ContractState} {sender toA : Address} {amount : Nat} {h : Hash}
    {ts : Nat} {s1 : ContractState} (hok : batchIssue s sender toA amount h ts = .ok s1) :
    s.hasCityAdmin sender = true ∧ s.paused = false ∧ toA ≠ 0 ∧ amount ≠ 0 ∧ amount ≤ 1000 ∧
    s.hasProducer toA = true ∧ s.certifiedRequests h = true ∧ s.requestCertifiers h = sender ∧
    toA ≠ sender ∧ s.producerCities toA = s.requestCities h ∧
    s1.nextTokenId = s.nextTokenId + amount ∧
    (∀ j, j < s.nextTokenId → s1.owners j = s.owners j) ∧
    (∀ j, s.nextTokenId ≤ j → j < s.nextTokenId + amount → s1.owners j = toA) ∧
    (∀ j, s.nextTokenId + amount ≤ j → s1.owners j = s.owners j) ∧
    s1.isRetired = s.isRetired ∧ s1.tokenApprovals = s.tokenApprovals ∧
    s1.operatorApprovals = s.operatorApprovals ∧ s1.certifiedRequests h = false := by
  unfold batchIssue at hok
  by_cases c1 : s.hasCityAdmin sender = false
  · rw [if_pos c1] at hok; exact Except.noConfusion hok
  rw [if_neg c1] at hok
  by_cases c2 : s.paused = true
  · rw [if_pos c2] at hok; exact Except.noConfusion hok
  rw [if_neg c2] at hok
  by_cases c3 : toA = 0
  · rw [if_pos c3] at hok; exact Except.noConfusion hok
  rw [if_neg c3] at hok
  by_cases c4 : amount = 0
  · rw [if_pos c4] at hok; exact Except.noConfusion hok
  rw [if_neg c4] at hok
  by_cases c5 : 1000 < amount
  · rw [if_pos c5] at hok; exact Except.noConfusion hok
  rw [if_neg c5] at hok
  by_cases c6 : s.hasProducer toA = false
  · rw [if_pos c6] at hok; exact Except.noConfusion hok
  rw [if_neg c6] at hok
  by_cases c7 : s.certifiedRequests h = false
  · rw [if_pos c7] at hok; exact Except.noConfusion hok
  rw [if_neg c7] at hok
  by_cases c8 : s.requestCertifiers h ≠ sender
  · rw [if_pos c8] at hok; exact Except.noConfusion hok
  rw [if_neg c8] at hok
  by_cases c9 : toA = sender
  · rw [if_pos c9] at hok; exact Except.noConfusion hok
  rw [if_neg c9] at hok
  by_cases c10 : s.producerCities toA ≠ s.requestCities h
  · rw [if_pos c10] at hok; exact Except.noConfusion hok
  rw [if_neg c10] at hok
  cases hmb : mintBatch s toA amount (s.requestCities h) ts with
  | error e => rw [hmb] at hok; exact Except.noConfusion hok
  | ok s2 =>
    rw [hmb] at hok
    injection hok with hok
    subst hok
    obtain ⟨hnext, hlow, hrange, hhigh, hret, htap, hop, hpa⟩ := mintBatch_ok hmb
    have hrole2 : s.hasCityAdmin sender = true := by simpa using c1
    have hpause2 : s.paused = false := by simpa using c2
    have hprod2 : s.hasProducer toA = true := by simpa using c6
    have hcertified2 : s.certifiedRequests h = true := by simpa using c7
    have hlast : upd s2.certifiedRequests h false h = false := by simp [upd]
    exact ⟨hrole2, hpause2, c3, c4, by omega, hprod2, hcertified2, not_not.mp c8,
      c9, not_not.mp c10, hnext, hlow, hrange, hhigh, hret, htap, hop, hlast⟩
end HydroCred

namespace HydroCred

theorem Inv_of_core {s s1 : ContractState} (hInv : Inv s) (hc : CoreEq s s1) : Inv s1 := by
  obtain ⟨h1, h2, h3, h4, h5⟩ := hInv
  obtain ⟨ho, hr, hn, ht, hp⟩ := hc
  refine ⟨by rw [hn]; exact h1, ?_, ?_, ?_, ?_⟩
  · intro id hid
    rw [hn] at hid
    rw [ho]
    exact h2 id hid
  · intro id hid
    rw [hr] at hid
    rw [ho]
    exact h3 id hid
  · intro id hid0
    rw [ho] at hid0
    rw [ht]
    exact h4 id hid0
  · intro x
    rw [hp]
    exact h5 x

theorem transfer_Inv {s s1 : ContractState} {sender frm toA : Address} {tokenId : Nat}
    (hgood : sender ≠ 0) (hInv : Inv s)
    (hok : transferFrom s sender frm toA tokenId = .ok s1) : Inv s1 := by
  obtain ⟨h1, h2, h3, h4, h5⟩ := hInv
  obtain ⟨hretired, hbuy, ht0, hpause, hfrm, hauth, ho, hr, hn, htapj, htapd, hop, hpa⟩ :=
    transferFrom_ok hok
  have hauth2 : isAuthorized s frm sender tokenId = true := by
    rcases hauth with h | h
    · exact absurd h hgood
    · exact h
  have hfrm0 : frm ≠ 0 := by
    intro hf0
    rw [hf0] at hauth2 hfrm
    unfold isAuthorized at hauth2
    rw [h4 tokenId hfrm, h5] at hauth2
    simp at hauth2
    exact hauth2.1 hauth2.2.symm
  have howner : s.owners tokenId ≠ 0 := by rw [hfrm]; exact hfrm0
  have htlt : tokenId < s.nextTokenId := Nat.not_le.mp (fun hle => howner (h2 tokenId hle))
  refine ⟨by rw [hn]; exact h1, ?_, ?_, ?_, by rw [hop]; exact h5⟩
  · intro id hid
    rw [hn] at hid
    rw [ho]
    have hne : id ≠ tokenId := by omega
    simp only [upd, if_neg hne]
    exact h2 id hid
  · intro id hid
    rw [hr] at hid
    rw [ho]
    by_cases hidt : id = tokenId
    · subst hidt
      simp only [upd, if_pos rfl]
      exact ht0
    · simp only [upd, if_neg hidt]
      exact h3 id hid
  · intro id hid0
    rw [ho] at hid0
    by_cases hidt : id = tokenId
    · subst hidt
      simp only [upd, if_pos rfl] at hid0
      exact absurd hid0 ht0
    · simp only [upd, if_neg hidt] at hid0
      rw [htapj id hidt]
      exact h4 id hid0

theorem exec_Inv {s : ContractState} {op : Op} (hgood : op.sender ≠ 0) (hInv : Inv s) :
    Inv (exec s op) := by
  unfold exec
  cases hst : step s op with
  | error e => exact hInv
  | ok s1 =>
    show Inv s1
    obtain ⟨h1, h2, h3, h4, h5⟩ := hInv
    cases op with
    | appointCountryAdmin sender admin =>
      simp only [step] at hst
      exact Inv_of_core ⟨h1, h2, h3, h4, h5⟩ (appointCountryAdmin_core hst)
    | appointStateAdmin sender admin countryId =>
      simp only [step] at hst
      exact Inv_of_core ⟨h1, h2, h3, h4, h5⟩ (appointStateAdmin_core hst)
    | appointCityAdmin sender admin stateId =>
      simp only [step] at hst
      exact Inv_of_core ⟨h1, h2, h3, h4, h5⟩ (appointCityAdmin_core hst)
    | registerProducer sender producer cityId =>
      simp only [step] at hst
      exact Inv_of_core ⟨h1, h2, h3, h4, h5⟩ (registerProducer_core hst)
    | registerBuyer sender =>
      simp only [step] at hst
      exact Inv_of_core ⟨h1, h2, h3, h4, h5⟩ (registerBuyer_core hst)
    | certifyRequest sender requestHash cityId =>
      simp only [step] at hst
      exact Inv_of_core ⟨h1, h2, h3, h4, h5⟩ (certifyRequest_core hst)
    | pause sender =>
      simp only [step] at hst
      exact Inv_of_core ⟨h1, h2, h3, h4, h5⟩ (pause_core hst)
    | unpause sender =>
      simp only [step] at hst
      exact Inv_of_core ⟨h1, h2, h3, h4, h5⟩ (unpause_core hst)
    | transferFrom sender frm toA tokenId =>
      simp only [step] at hst
      exact transfer_Inv hgood ⟨h1, h2, h3, h4, h5⟩ hst
    | safeTransferFrom sender frm toA tokenId =>
      simp only [step] at hst
      rw [safeTransferFrom_eq] at hst
      exact transfer_Inv hgood ⟨h1, h2, h3, h4, h5⟩ hst
    | batchIssue sender toA amount requestHash ts =>
      simp only [step] at hst
      obtain ⟨-, -, ht0, -, -, -, -, -, -, -, hnext, hlow, hrange, hhigh, hret, htap, hop, -⟩ :=
        batchIssue_ok hst
      have hlt : ∀ id, s.owners id ≠ 0 → id < s.nextTokenId :=
        fun id hne => Nat.not_le.mp (fun hle => hne (h2 id hle))
      refine ⟨by omega, ?_, ?_, ?_, by rw [hop]; exact h5⟩
      · intro id hid
        rw [hnext] at hid
        rw [hhigh id hid]
        exact h2 id (by omega)
      · intro id hid
        rw [hret] at hid
        have hne := h3 id hid
        rw [hlow id (hlt id hne)]
        exact hne
      · intro id hid0
        rw [htap]
        rcases lt_or_le id s.nextTokenId with hc | hc
        · rw [hlow id hc] at hid0
          exact h4 id hid0
        · rcases lt_or_le id (s.nextTokenId + amount) with hc2 | hc2
          · rw [hrange id hc hc2] at hid0
            exact absurd hid0 ht0
          · rw [hhigh id hc2] at hid0
            exact h4 id hid0
    | retire sender tokenId ts =>
      simp only [step] at hst
      obtain ⟨hown, hbuy, hnr, rfl⟩ := retire_ok hst
      replace hgood : sender ≠ 0 := hgood
      refine ⟨h1, h2, ?_, h4, h5⟩
      intro id hid
      replace hid : upd s.isRetired tokenId true id = true := hid
      show s.owners id ≠ 0
      by_cases hidt : id = tokenId
      · subst hidt
        rw [hown]
        exact hgood
      · simp only [upd, if_neg hidt] at hid
        exact h3 id hid
    | approve sender toA tokenId =>
      simp only [step] at hst
      obtain ⟨hown, rfl⟩ := approve_ok hst
      refine ⟨h1, h2, h3, ?_, h5⟩
      intro id hid0
      replace hid0 : s.owners id = 0 := hid0
      show upd s.tokenApprovals tokenId toA id = 0
      by_cases hidt : id = tokenId
      · subst hidt
        exact absurd hid0 hown
      · simp only [upd, if_neg hidt]
        exact h4 id hid0
    | setApprovalForAll sender opr approved =>
      simp only [step] at hst
      obtain ⟨hopr, rfl⟩ := setApprovalForAll_ok hst
      replace hgood : sender ≠ 0 := hgood
      refine ⟨h1, h2, h3, h4, ?_⟩
      intro x
      show upd2 s.operatorApprovals sender opr approved 0 x = false
      simp only [upd2]
      rw [if_neg]
      · exact h5 x
      · intro hand
        exact hgood hand.1.symm

theorem init_Inv (a : Address) : Inv (init a) := by
  refine ⟨le_refl 1, fun id _ => rfl, fun id hid => by simp [init] at hid,
    fun id _ => rfl, fun x => rfl⟩

theorem execs_Inv : ∀ (ops : List Op) (s : ContractState), Inv s → GoodOps ops →
    Inv (execs s ops)
  | [], s, hInv, _ => hInv
  | op :: rest, s, hInv, hg => by
    have hInv2 : Inv (exec s op) := exec_Inv (hg op (List.mem_cons_self op rest)) hInv
    have hg2 : GoodOps rest := fun o ho => hg o (List.mem_cons_of_mem op ho)
    exact execs_Inv rest (exec s op) hInv2 hg2

theorem Reachable_Inv {a : Address} {s : ContractState} (hre : Reachable a s) : Inv s := by
  obtain ⟨ha, ops, hg, rfl⟩ := hre
  exact execs_Inv ops (init a) (init_Inv a) hg

end HydroCred

namespace HydroCred

theorem registerProducer_ok {s : ContractState} {sender producer : Address} {cityId : Nat}
    {s1 : ContractState} (hok : registerProducer s sender producer cityId = .ok s1) :
    s.hasCityAdmin sender = true ∧ producer ≠ 0 ∧ s.adminCities sender = cityId ∧
    s.hasProducer producer = false ∧ s.hasCityAdmin producer = false ∧
    s.hasStateAdmin producer = false ∧ s.hasCountryAdmin producer = false ∧
    s.hasDefaultAdmin producer = false := by
  unfold registerProducer at hok
  repeat' split at hok
  all_goals simp_all

theorem registerBuyer_ok {s : ContractState} {sender : Address}
    {s1 : ContractState} (hok : registerBuyer s sender = .ok s1) :
    s.hasBuyer sender = false ∧ s.hasProducer sender = false := by
  unfold registerBuyer at hok
  repeat' split at hok
  all_goals simp_all

theorem transferFrom_retired {s : ContractState} {sender frm toA : Address} {tokenId : Nat}
    (hr : s.isRetired tokenId = true) :
    transferFrom s sender frm toA tokenId = .error .unitRetired := by
  unfold transferFrom
  rw [if_pos hr]

theorem safeTransferFrom_retired {s : ContractState} {sender frm toA : Address} {tokenId : Nat}
    (hr : s.isRetired tokenId = true) :
    safeTransferFrom s sender frm toA tokenId = .error .unitRetired := by
  unfold safeTransferFrom
  rw [if_pos hr]

theorem retire_retired_fails {s : ContractState} {sender : Address} {tokenId ts : Nat}
    (hr : s.isRetired tokenId = true) :
    isOk (retire s sender tokenId ts) = false := by
  unfold retire
  by_cases h1 : s.owners tokenId ≠ sender
  · rw [if_pos h1]
    rfl
  rw [if_neg h1]
  by_cases h2 : s.hasBuyer sender = false
  · rw [if_pos h2]
    rfl
  rw [if_neg h2, if_pos hr]
  rfl

theorem exec_frozen {s : ContractState} {op : Op} (hgood : op.sender ≠ 0) (hInv : Inv s)
    {id : Nat} (hr : s.isRetired id = true) :
    (exec s op).isRetired id = true ∧ (exec s op).owners id = s.owners id := by
  obtain ⟨h1, h2, h3, h4, h5⟩ := hInv
  unfold exec
  cases hst : step s op with
  | error e => exact ⟨hr, rfl⟩
  | ok s1 =>
    show s1.isRetired id = true ∧ s1.owners id = s.owners id
    cases op with
    | appointCountryAdmin sender admin =>
      simp only [step] at hst
      obtain ⟨ho, hrr, -, -, -⟩ := appointCountryAdmin_core hst
      exact ⟨by rw [hrr]; exact hr, by rw [ho]⟩
    | appointStateAdmin sender admin countryId =>
      simp only [step] at hst
      obtain ⟨ho, hrr, -, -, -⟩ := appointStateAdmin_core hst
      exact ⟨by rw [hrr]; exact hr, by rw [ho]⟩
    | appointCityAdmin sender admin stateId =>
      simp only [step] at hst
      obtain ⟨ho, hrr, -, -, -⟩ := appointCityAdmin_core hst
      exact ⟨by rw [hrr]; exact hr, by rw [ho]⟩
    | registerProducer sender producer cityId =>
      simp only [step] at hst
      obtain ⟨ho, hrr, -, -, -⟩ := registerProducer_core hst
      exact ⟨by rw [hrr]; exact hr, by rw [ho]⟩
    | registerBuyer sender =>
      simp only [step] at hst
      obtain ⟨ho, hrr, -, -, -⟩ := registerBuyer_core hst
      exact ⟨by rw [hrr]; exact hr, by rw [ho]⟩
    | certifyRequest sender requestHash cityId =>
      simp only [step] at hst
      obtain ⟨ho, hrr, -, -, -⟩ := certifyRequest_core hst
      exact ⟨by rw [hrr]; exact hr, by rw [ho]⟩
    | pause sender =>
      simp only [step] at hst
      obtain ⟨ho, hrr, -, -, -⟩ := pause_core hst
      exact ⟨by rw [hrr]; exact hr, by rw [ho]⟩
    | unpause sender =>
      simp only [step] at hst
      obtain ⟨ho, hrr, -, -, -⟩ := unpause_core hst
      exact ⟨by rw [hrr]; exact hr, by rw [ho]⟩
    | approve sender toA tokenId =>
      simp only [step] at hst
      obtain ⟨-, rfl⟩ := approve_ok hst
      exact ⟨hr, rfl⟩
    | setApprovalForAll sender opr approved =>
      simp only [step] at hst
      obtain ⟨-, rfl⟩ := setApprovalForAll_ok hst
      exact ⟨hr, rfl⟩
    | retire sender tokenId ts =>
      simp only [step] at hst
      obtain ⟨hown, hbuy, hnr, rfl⟩ := retire_ok hst
      have hne : id ≠ tokenId := by
        intro he
        rw [he] at hr
        rw [hr] at hnr
        exact Bool.noConfusion hnr
      constructor
      · show upd s.isRetired tokenId true id = true
        simp only [upd, if_neg hne]
        exact hr
      · rfl
    | transferFrom sender frm toA tokenId =>
      simp only [step] at hst
      obtain ⟨hnr, -, -, -, -, -, ho, hrr, -, -, -, -, -⟩ := transferFrom_ok hst
      have hne : id ≠ tokenId := by
        intro he
        rw [he] at hr
        rw [hr] at hnr
        exact Bool.noConfusion hnr
      constructor
      · rw [hrr]
        exact hr
      · rw [ho]
        simp only [upd, if_neg hne]
    | safeTransferFrom sender frm toA tokenId =>
      simp only [step] at hst
      rw [safeTransferFrom_eq] at hst
      obtain ⟨hnr, -, -, -, -, -, ho, hrr, -, -, -, -, -⟩ := transferFrom_ok hst
      have hne : id ≠ tokenId := by
        intro he
        rw [he] at hr
        rw [hr] at hnr
        exact Bool.noConfusion hnr
      constructor
      · rw [hrr]
        exact hr
      · rw [ho]
        simp only [upd, if_neg hne]
    | batchIssue sender toA amount requestHash ts =>
      simp only [step] at hst
      obtain ⟨-, -, -, -, -, -, -, -, -, -, -, hlow, -, -, hret, -, -, -⟩ :=
        batchIssue_ok hst
      have hown := h3 id hr
      have hlt : id < s.nextTokenId := Nat.not_le.mp (fun hle => hown (h2 id hle))
      exact ⟨by rw [hret]; exact hr, hlow id hlt⟩

theorem execs_frozen : ∀ (ops : List Op) (s : ContractState), Inv s → GoodOps ops →
    ∀ id, s.isRetired id = true →
    (execs s ops).isRetired id = true ∧ (execs s ops).owners id = s.owners id
  | [], s, _, _, id, hr => ⟨hr, rfl⟩
  | op :: rest, s, hInv, hg, id, hr => by
    have hgo : op.sender ≠ 0 := hg op (List.mem_cons_self op rest)
    have hfr := exec_frozen hgo hInv hr
    have hInv2 := exec_Inv hgo hInv
    have hg2 : GoodOps rest := fun o ho => hg o (List.mem_cons_of_mem op ho)
    have htail := execs_frozen rest (exec s op) hInv2 hg2 id hfr.1
    exact ⟨htail.1, htail.2.trans hfr.2⟩

theorem exec_nextTokenId_mono (s : ContractState) (op : Op) :
    s.nextTokenId ≤ (exec s op).nextTokenId := by
  unfold exec
  cases hst : step s op with
  | error e => exact le_refl _
  | ok s1 =>
    show s.nextTokenId ≤ s1.nextTokenId
    cases op with
    | appointCountryAdmin sender admin =>
      simp only [step] at hst
      exact le_of_eq ((appointCountryAdmin_core hst).2.2.1).symm
    | appointStateAdmin sender admin countryId =>
      simp only [step] at hst
      exact le_of_eq ((appointStateAdmin_core hst).2.2.1).symm
    | appointCityAdmin sender admin stateId =>
      simp only [step] at hst
      exact le_of_eq ((appointCityAdmin_core hst).2.2.1).symm
    | registerProducer sender producer cityId =>
      simp only [step] at hst
      exact le_of_eq ((registerProducer_core hst).2.2.1).symm
    | registerBuyer sender =>
      simp only [step] at hst
      exact le_of_eq ((registerBuyer_core hst).2.2.1).symm
    | certifyRequest sender requestHash cityId =>
      simp only [step] at hst
      exact le_of_eq ((certifyRequest_core hst).2.2.1).symm
    | pause sender =>
      simp only [step] at hst
      exact le_of_eq ((pause_core hst).2.2.1).symm
    | unpause sender =>
      simp only [step] at hst
      exact le_of_eq ((unpause_core hst).2.2.1).symm
    | approve sender toA tokenId =>
      simp only [step] at hst
      obtain ⟨-, rfl⟩ := approve_ok hst
      exact le_refl _
    | setApprovalForAll sender opr approved =>
      simp only [step] at hst
      obtain ⟨-, rfl⟩ := setApprovalForAll_ok hst
      exact le_refl _
    | retire sender tokenId ts =>
      simp only [step] at hst
      obtain ⟨-, -, -, rfl⟩ := retire_ok hst
      exact le_refl _
    | transferFrom sender frm toA tokenId =>
      simp only [step] at hst
      obtain ⟨-, -, -, -, -, -, -, -, hn, -, -, -, -⟩ := transferFrom_ok hst
      exact le_of_eq hn.symm
    | safeTransferFrom sender frm toA tokenId =>
      simp only [step] at hst
      rw [safeTransferFrom_eq] at hst
      obtain ⟨-, -, -, -, -, -, -, -, hn, -, -, -, -⟩ := transferFrom_ok hst
      exact le_of_eq hn.symm
    | batchIssue sender toA amount requestHash ts =>
      simp only [step] at hst
      obtain ⟨-, -, -, -, -, -, -, -, -, -, hnext, -, -, -, -, -, -, -⟩ := batchIssue_ok hst
      omega

end HydroCred

namespace HydroCred

/-- C8: every state-mutating operation that fails (reverts) leaves the ledger
state exactly as it was before the call; the transaction interpreter applies
no mutation of a reverted call. -/
theorem failed_call_leaves_state_unchanged (s : ContractState) (op : Op)
    (hfail : isOk (step s op) = false) : exec s op = s := by
  unfold exec
  cases hst : step s op with
  | ok s1 =>
    rw [hst] at hfail
    exact absurd hfail (by simp [isOk])
  | error e => rfl

/-- C8 witness: registering an already-registered buyer fails and leaves the
state unchanged. -/
theorem failed_call_unchanged_witness : exec sSetup (Op.registerBuyer 6) = sSetup :=
  failed_call_leaves_state_unchanged sSetup (Op.registerBuyer 6) (by decide)

/-- C1 counterexample: certify for hash 7 succeeds in the setup state, and
after the certifier issues against hash 7 (consuming the record), a second
certify for the very same hash succeeds again from the reachable state
sIssued, so certify does not succeed at most once per hash. -/
theorem certify_twice_counterexample :
    Reachable 1 sSetup ∧
    isOk (certifyRequest sSetup 4 7 1) = true ∧
    sIssued = execs sSetup [Op.certifyRequest 4 7 1, Op.batchIssue 4 5 2 7 0] ∧
    isOk (certifyRequest sIssued 4 7 1) = true :=
  ⟨⟨by decide, setupOps, by decide, rfl⟩, by decide, rfl, by decide⟩

/-- C1 amended: certify succeeds at most once per hash while the certification
record is live: a successful certify requires that no live record exists, and
while a live record exists any certify of the same hash by a city admin of an
unpaused contract fails with AlreadyCertified.  After batchIssue deletes the
record, the hash may be certified again. -/
theorem certify_at_most_once_while_live (s : ContractState) (sender : Address)
    (h : Hash) (city : Nat) :
    (∀ s1, certifyRequest s sender h city = .ok s1 → s.certifiedRequests h = false) ∧
    (s.hasCityAdmin sender = true → s.paused = false → h ≠ 0 →
      s.certifiedRequests h = true →
      certifyRequest s sender h city = .error .alreadyCertified) := by
  constructor
  · intro s1 hok
    exact (certifyRequest_ok hok).2.2.2.1
  · intro hrole hp hh hc
    unfold certifyRequest
    rw [if_neg (by simp [hrole]), if_neg (by simp [hp]), if_neg hh, if_pos hc]

/-- C1 witness: in the reachable state where hash 7 is live, a repeated
certify by certifier 4 fails with AlreadyCertified. -/
theorem certify_at_most_once_witness :
    certifyRequest sCert 4 7 1 = .error .alreadyCertified :=
  (certify_at_most_once_while_live sCert 4 7 1).2 (by decide) (by decide) (by decide)
    (by decide)

/-- C2 counterexample: country admin 2 self-registers as buyer and ends up
holding both CountryAdmin and Buyer in a reachable state, so principals are
not limited to one role and an admin can simultaneously hold Buyer. -/
theorem role_exclusivity_counterexample :
    Reachable 1 sTwoRoles ∧ sTwoRoles.hasCountryAdmin 2 = true ∧
    sTwoRoles.hasBuyer 2 = true :=
  ⟨⟨by decide, twoRoleOps, by decide, rfl⟩, by decide, by decide⟩

/-- C2 amended: the only role-exclusion checks are at registration time:
registerProducer refuses a target that is already a Producer or holds any
admin role, and registerBuyer refuses a caller that is already a Buyer or a
Producer; roles are otherwise not exclusive (an admin may still become a
Buyer, and a Producer may be appointed to an admin role). -/
theorem role_checks_at_registration (s : ContractState) (sender p : Address) (city : Nat) :
    (∀ s1, registerProducer s sender p city = .ok s1 →
      s.hasProducer p = false ∧ s.hasCityAdmin p = false ∧ s.hasStateAdmin p = false ∧
      s.hasCountryAdmin p = false ∧ s.hasDefaultAdmin p = false) ∧
    (∀ s1, registerBuyer s sender = .ok s1 →
      s.hasBuyer sender = false ∧ s.hasProducer sender = false) := by
  constructor
  · intro s1 hok
    obtain ⟨-, -, -, h4, h5, h6, h7, h8⟩ := registerProducer_ok hok
    exact ⟨h4, h5, h6, h7, h8⟩
  · intro s1 hok
    exact registerBuyer_ok hok

/-- C2 witness: the successful registration of producer 5 by city admin 4
presupposed that principal 5 held no role at all. -/
theorem role_checks_witness :
    sCity.hasProducer 5 = false ∧ sCity.hasCityAdmin 5 = false ∧
    sCity.hasStateAdmin 5 = false ∧ sCity.hasCountryAdmin 5 = false ∧
    sCity.hasDefaultAdmin 5 = false :=
  (role_checks_at_registration sCity 4 5 1).1 (exec sCity (Op.registerProducer 4 5 1)) rfl

/-- C3: batchIssue succeeds only when the caller is the exact principal that
certified the request and the record is still live; any other caller never
succeeds, and a caller that passes every earlier check but is not the
certifier fails precisely with the Unauthorized-kind error
"Only certifier can issue credits". -/
theorem batchIssue_only_certifier (s : ContractState) (sender toA : Address) (amount : Nat)
    (h : Hash) (ts : Nat) :
    (∀ s1, batchIssue s sender toA amount h ts = .ok s1 →
      s.certifiedRequests h = true ∧ s.requestCertifiers h = sender) ∧
    (s.requestCertifiers h ≠ sender → isOk (batchIssue s sender toA amount h ts) = false) ∧
    (s.hasCityAdmin sender = true → s.paused = false → toA ≠ 0 → amount ≠ 0 → amount ≤ 1000 →
      s.hasProducer toA = true → s.certifiedRequests h = true →
      s.requestCertifiers h ≠ sender →
      batchIssue s sender toA amount h ts = .error .unauthorizedIssuer) := by
  refine ⟨?_, ?_, ?_⟩
  · intro s1 hok
    obtain ⟨-, -, -, -, -, -, h7, h8, -⟩ := batchIssue_ok hok
    exact ⟨h7, h8⟩
  · intro hne
    cases hc : batchIssue s sender toA amount h ts with
    | ok s1 =>
      obtain ⟨-, -, -, -, -, -, -, h8, -⟩ := batchIssue_ok hc
      exact absurd h8 hne
    | error e => rfl
  · intro c1 c2 c3 c4 c5 c6 c7 c8
    unfold batchIssue
    rw [if_neg (by simp [c1]), if_neg (by simp [c2]), if_neg c3, if_neg c4,
      if_neg (by omega), if_neg (by simp [c6]), if_neg (by simp [c7]), if_pos c8]

/-- C3 witness: city admin 8 passes every check except being the certifier of
hash 7 (which certifier 4 recorded) and fails with the Unauthorized error. -/
theorem batchIssue_only_certifier_witness :
    batchIssue sTwoAdmins 8 5 1 7 0 = .error .unauthorizedIssuer :=
  (batchIssue_only_certifier sTwoAdmins 8 5 1 7 0).2.2 (by decide) (by decide) (by decide)
    (by decide) (by decide) (by decide) (by decide) (by decide)

/-- C4: a successful batchIssue from a reachable state allocates exactly
`amount` token ids forming the contiguous run from the current counter value,
leaves every previously allocated id untouched, allocates no id at or beyond
the end of the run, every id owned before the call lies below the counter (so
the new run is disjoint from all earlier allocations), and the shared counter
only ever increases under any operation. -/
theorem batchIssue_allocates_fresh_range (a : Address) (s : ContractState)
    (hre : Reachable a s) (sender toA : Address) (amount : Nat) (h : Hash) (ts : Nat)
    (s1 : ContractState) (hok : batchIssue s sender toA amount h ts = .ok s1) :
    s1.nextTokenId = s.nextTokenId + amount ∧ amount ≠ 0 ∧ toA ≠ 0 ∧
    (∀ j, s.nextTokenId ≤ j → j < s.nextTokenId + amount → s1.owners j = toA) ∧
    (∀ j, j < s.nextTokenId → s1.owners j = s.owners j) ∧
    (∀ j, s.nextTokenId + amount ≤ j → s1.owners j = 0) ∧
    (∀ j, s.owners j ≠ 0 → j < s.nextTokenId) ∧
    (∀ op : Op, s.nextTokenId ≤ (exec s op).nextTokenId) := by
  obtain ⟨h1, h2, h3, h4, h5⟩ := Reachable_Inv hre
  obtain ⟨-, -, ht0, ham0, -, -, -, -, -, -, hnext, hlow, hrange, hhigh, -, -, -, -⟩ :=
    batchIssue_ok hok
  refine ⟨hnext, ham0, ht0, hrange, hlow, ?_, ?_, fun op => exec_nextTokenId_mono s op⟩
  · intro j hj
    rw [hhigh j hj]
    exact h2 j (by omega)
  · intro j hj
    exact Nat.not_le.mp (fun hle => hj (h2 j hle))

/-- C4 witness: issuing 2 credits from the certified demo state mints exactly
token ids 1 and 2 to producer 5 and advances the counter from 1 to 3. -/
theorem batchIssue_allocates_witness :
    (exec sCert (Op.batchIssue 4 5 2 7 0)).nextTokenId = sCert.nextTokenId + 2 ∧
    (exec sCert (Op.batchIssue 4 5 2 7 0)).owners 1 = 5 ∧
    (exec sCert (Op.batchIssue 4 5 2 7 0)).owners 2 = 5 ∧
    (exec sCert (Op.batchIssue 4 5 2 7 0)).owners 3 = 0 := by
  have hok : batchIssue sCert 4 5 2 7 0 = .ok (exec sCert (Op.batchIssue 4 5 2 7 0)) := rfl
  have h := batchIssue_allocates_fresh_range 1 sCert ⟨by decide, certOps, by decide, rfl⟩
    4 5 2 7 0 (exec sCert (Op.batchIssue 4 5 2 7 0)) hok
  exact ⟨h.1, h.2.2.2.1 1 (by decide) (by decide), h.2.2.2.1 2 (by decide) (by decide),
    h.2.2.2.2.2.1 3 (by decide)⟩

/-- C5: once a unit is retired in a reachable state, its retirement flag and
its owner never change under any further sequence of calls, and every
transfer or retire call on that unit fails immediately. -/
theorem retired_unit_frozen (a : Address) (s : ContractState) (hre : Reachable a s)
    (id : Nat) (hr : s.isRetired id = true) (ops : List Op) (hg : GoodOps ops) :
    (execs s ops).isRetired id = true ∧
    (execs s ops).owners id = s.owners id ∧
    (∀ sender frm toA, transferFrom s sender frm toA id = .error .unitRetired ∧
      safeTransferFrom s sender frm toA id = .error .unitRetired) ∧
    (∀ sender ts, isOk (retire s sender id ts) = false) := by
  have hInv := Reachable_Inv hre
  have hfr := execs_frozen ops s hInv hg id hr
  exact ⟨hfr.1, hfr.2, fun sender frm toA =>
    ⟨transferFrom_retired hr, safeTransferFrom_retired hr⟩,
    fun sender ts => retire_retired_fails hr⟩

/-- C5 witness: after buyer 6 retires token 1, a further transfer attempt
leaves the unit retired with its owner unchanged, and both a transfer and a
retire of token 1 fail. -/
theorem retired_unit_frozen_witness :
    (execs sRetired [Op.transferFrom 6 6 5 1]).isRetired 1 = true ∧
    (execs sRetired [Op.transferFrom 6 6 5 1]).owners 1 = sRetired.owners 1 ∧
    transferFrom sRetired 6 6 5 1 = .error .unitRetired ∧
    isOk (retire sRetired 6 1 100) = false := by
  have h := retired_unit_frozen 1 sRetired ⟨by decide, retireOps, by decide, rfl⟩ 1
    (by decide) [Op.transferFrom 6 6 5 1] (by decide)
  exact ⟨h.1, h.2.1, (h.2.2.1 6 6 5).1, h.2.2.2 6 100⟩

/-- C6 counterexample: buyer 6 owns token 1 and successfully transfers it to
producer 5 (a recipient that does not hold Buyer), so a Buyer-to-Producer
transfer is not rejected. -/
theorem buyer_transfer_rule_counterexample :
    Reachable 1 sTrans ∧ sTrans.hasBuyer 6 = true ∧ sTrans.hasProducer 5 = true ∧
    sTrans.hasBuyer 5 = false ∧ sTrans.owners 1 = 6 ∧
    isOk (transferFrom sTrans 6 6 5 1) = true :=
  ⟨⟨by decide, transOps, by decide, rfl⟩, by decide, by decide, by decide, by decide,
    by decide⟩

/-- C6 amended: a transfer whose recipient holds Buyer succeeds only if the
sender holds Producer at call time, and fails with SellerNotProducer when the
sender is no producer (and the unit is not already retired); recipients that
do not hold Buyer, such as producers, are not role-restricted, so a
Buyer-to-Producer transfer can succeed.  safeTransferFrom enforces exactly
the same rule. -/
theorem transfer_buyer_recipient_rule (s : ContractState) (sender frm toA : Address)
    (tokenId : Nat) :
    (s.hasBuyer toA = true → ∀ s1, transferFrom s sender frm toA tokenId = .ok s1 →
      s.hasProducer frm = true) ∧
    (s.hasBuyer toA = true → s.hasProducer frm = false → s.isRetired tokenId = false →
      transferFrom s sender frm toA tokenId = .error .sellerNotProducer) ∧
    safeTransferFrom s sender frm toA tokenId = transferFrom s sender frm toA tokenId := by
  refine ⟨?_, ?_, safeTransferFrom_eq s sender frm toA tokenId⟩
  · intro hb s1 hok
    exact (transferFrom_ok hok).2.1 hb
  · intro hb hp hret
    unfold transferFrom
    rw [if_neg (by simp [hret]), if_pos ⟨hb, hp⟩]

/-- C6 witness: a roleless seller 9 attempting a transfer to buyer 6 fails
with SellerNotProducer. -/
theorem transfer_buyer_recipient_witness :
    transferFrom sIssued 9 9 6 1 = .error .sellerNotProducer :=
  (transfer_buyer_recipient_rule sIssued 9 9 6 1).2.1 (by decide) (by decide) (by decide)

/-- C7 counterexample: owner 5 approves account 6 on token 2; account 6 (not
the owner, not the from address) then successfully moves the token, so a
transfer does not require the caller to equal the from address. -/
theorem transfer_owner_only_counterexample :
    Reachable 1 sApproved ∧ sApproved.owners 2 = 5 ∧ sApproved.tokenApprovals 2 = 6 ∧
    isOk (transferFrom sApproved 6 5 9 2) = true :=
  ⟨⟨by decide, approveOps, by decide, rfl⟩, by decide, by decide, by decide⟩

/-- C7 amended: a transfer from a nonzero caller succeeds only if the from
address is the unit's current owner and the caller is authorized for it: the
owner itself, an operator approved by the owner, or the address approved for
that unit; a call whose from address is not the current owner always fails. -/
theorem transfer_requires_owner_and_authorization (s : ContractState)
    (sender frm toA : Address) (tokenId : Nat) (hs : sender ≠ 0) :
    (∀ s1, transferFrom s sender frm toA tokenId = .ok s1 →
      s.owners tokenId = frm ∧
      (frm = sender ∨ s.operatorApprovals frm sender = true ∨
        s.tokenApprovals tokenId = sender)) ∧
    (s.owners tokenId ≠ frm → isOk (transferFrom s sender frm toA tokenId) = false) := by
  constructor
  · intro s1 hok
    obtain ⟨-, -, -, -, hfrm, hauth, -, -, -, -, -, -, -⟩ := transferFrom_ok hok
    have hauth2 : isAuthorized s frm sender tokenId = true := by
      rcases hauth with h | h
      · exact absurd h hs
      · exact h
    unfold isAuthorized at hauth2
    simp at hauth2
    exact ⟨hfrm, or_assoc.mp hauth2.2⟩
  · intro hne
    cases hc : transferFrom s sender frm toA tokenId with
    | ok s1 =>
      obtain ⟨-, -, -, -, hfrm, -, -, -, -, -, -, -, -⟩ := transferFrom_ok hc
      exact absurd hfrm hne
    | error e => rfl

/-- C7 witness: the successful third-party transfer of token 2 presupposed
that 5 was the owner and that caller 6 carried the per-token approval. -/
theorem transfer_authorization_witness :
    sApproved.owners 2 = 5 ∧
    ((5 : Address) = 6 ∨ sApproved.operatorApprovals 5 6 = true ∨
      sApproved.tokenApprovals 2 = 6) :=
  (transfer_requires_owner_and_authorization sApproved 6 5 9 2 (by decide)).1
    (exec sApproved (Op.transferFrom 6 5 9 2)) rfl

/-- C9 counterexample: a caller with no role at all calling issue on itself
fails with the missing-role error, not with SelfIssuance, so not every
self-issuance call fails with SelfIssuance. -/
theorem self_issuance_error_counterexample :
    batchIssue (init 1) 9 9 1 7 0 = .error .missingRole ∧
    batchIssue (init 1) 9 9 1 7 0 ≠ .error .selfIssuance := by
  have h1 : batchIssue (init 1) 9 9 1 7 0 = .error .missingRole := rfl
  refine ⟨h1, ?_⟩
  intro hc
  exact Err.noConfusion (Except.error.inj (h1.symm.trans hc))

/-- C9 amended: an issue call with recipient equal to the caller never
succeeds, for every state, amount and hash; the reported error is
SelfIssuance exactly when the caller passes all preceding checks (city-admin
role, unpaused, nonzero amount within the ceiling, recipient registered as
producer, request certified by the caller). -/
theorem self_issuance_always_fails (s : ContractState) (sender : Address) (amount : Nat)
    (h : Hash) (ts : Nat) :
    isOk (batchIssue s sender sender amount h ts) = false ∧
    (s.hasCityAdmin sender = true → s.paused = false → sender ≠ 0 → amount ≠ 0 →
      amount ≤ 1000 → s.hasProducer sender = true → s.certifiedRequests h = true →
      s.requestCertifiers h = sender →
      batchIssue s sender sender amount h ts = .error .selfIssuance) := by
  constructor
  · cases hc : batchIssue s sender sender amount h ts with
    | ok s1 =>
      obtain ⟨-, -, -, -, -, -, -, -, hne, -⟩ := batchIssue_ok hc
      exact absurd rfl hne
    | error e => rfl
  · intro c1 c2 c3 c4 c5 c6 c7 c8
    unfold batchIssue
    rw [if_neg (by simp [c1]), if_neg (by simp [c2]), if_neg c3, if_neg c4,
      if_neg (by omega), if_neg (by simp [c6]), if_neg (by simp [c7]),
      if_neg (by simp [c8]), if_pos rfl]

/-- C9 witness: producer 5, additionally appointed city admin, self-certifies
hash 11 and then hits exactly the SelfIssuance error when issuing to itself. -/
theorem self_issuance_witness :
    batchIssue sSelf 5 5 1 11 0 = .error .selfIssuance :=
  (self_issuance_always_fails sSelf 5 1 11 0).2 (by decide) (by decide) (by decide)
    (by decide) (by decide) (by decide) (by decide) (by decide)

/-- C10: while the contract is paused, certify, issue and every transfer of a
unit fail, but retire consults no pause flag: a buyer owning an active,
not-yet-retired unit retires it successfully even while the contract is
paused. -/
theorem paused_blocks_all_but_retire (s : ContractState) (hp : s.paused = true)
    (sender frm toA : Address) (amount : Nat) (h : Hash) (city tokenId ts : Nat) :
    isOk (certifyRequest s sender h city) = false ∧
    isOk (batchIssue s sender toA amount h ts) = false ∧
    isOk (transferFrom s sender frm toA tokenId) = false ∧
    isOk (safeTransferFrom s sender frm toA tokenId) = false ∧
    (s.owners tokenId = sender → s.hasBuyer sender = true → s.isRetired tokenId = false →
      isOk (retire s sender tokenId ts) = true) := by
  refine ⟨?_, ?_, ?_, ?_, ?_⟩
  · cases hc : certifyRequest s sender h city with
    | ok s1 =>
      have := (certifyRequest_ok hc).2.1
      rw [hp] at this
      exact Bool.noConfusion this
    | error e => rfl
  · cases hc : batchIssue s sender toA amount h ts with
    | ok s1 =>
      have := (batchIssue_ok hc).2.1
      rw [hp] at this
      exact Bool.noConfusion this
    | error e => rfl
  · cases hc : transferFrom s sender frm toA tokenId with
    | ok s1 =>
      obtain ⟨-, -, -, hpf, -, -, -, -, -, -, -, -, -⟩ := transferFrom_ok hc
      rw [hp] at hpf
      exact Bool.noConfusion hpf
    | error e => rfl
  · cases hc : safeTransferFrom s sender frm toA tokenId with
    | ok s1 =>
      rw [safeTransferFrom_eq] at hc
      obtain ⟨-, -, -, hpf, -, -, -, -, -, -, -, -, -⟩ := transferFrom_ok hc
      rw [hp] at hpf
      exact Bool.noConfusion hpf
    | error e => rfl
  · intro how hb hnr
    unfold retire
    rw [if_neg (by simp [how]), if_neg (by simp [hb]), if_neg (by simp [hnr])]
    rfl

/-- C10 witness: in the paused demo state, certify and transfer fail while
buyer 6 still successfully retires its active token 1. -/
theorem paused_witness :
    isOk (certifyRequest sPausedDemo 6 13 1) = false ∧
    isOk (transferFrom sPausedDemo 6 5 6 1) = false ∧
    isOk (retire sPausedDemo 6 1 50) = true := by
  have h := paused_blocks_all_but_retire sPausedDemo (by decide) 6 5 6 1 13 1 1 50
  exact ⟨h.1, h.2.2.1, h.2.2.2.2 (by decide) (by decide) (by decide)⟩

end HydroCred
